import Mathlib

/-!
Formal model of the multi-project persistent state store of the
Deductive Design System (source file src/lib/store.ts), covering the two
storage tiers, the legacy migration routine, the coalesced (debounced)
save queue, and the project-management facade operations.

Modelling conventions:
* TypeScript string-literal unions erase to strings at runtime, so they
  are modelled as String (Option String when nullable).
* JSON numbers are modelled as Rat; the store performs no arithmetic on
  them, it only moves documents around whole.
* The JS Date object in GeneratedDesign.createdAt survives persistence
  only as its serialized string, so it is modelled as String.
* JSON serialization and parsing are modelled as the identity on
  structured values, plus explicit constructors for malformed text.
-/

set_option maxRecDepth 4000

-- === Domain data types (from src/lib/types.ts) ===

inductive ResearchDomain where
  | environment
  | market
  | culture
  | economy
  | society
  | technology
deriving DecidableEq, Repr

inductive FindingType where
  | fact
  | implication
  | risk
  | opportunity
deriving DecidableEq, Repr

structure ResearchFinding where
  type : FindingType
  text : String
  starred : Option Bool
  excluded : Option Bool
deriving DecidableEq, Repr

structure ResearchCondition where
  domain : ResearchDomain
  notes : String
  weight : Rat
  tags : List String
  findings : Option (List ResearchFinding)
  weightRationale : Option String
  relatedDomains : Option (List ResearchDomain)
deriving DecidableEq, Repr

structure EvaluationScore where
  performance : Rat
  economy : Rat
  context : Rat
  experience : Rat
  social : Rat
  aesthetics : Rat
deriving DecidableEq, Repr

structure GeneratedImage where
  id : String
  image : String
  text : Option String
  prompt : String
  abstractionLevel : Rat
  style : String
  timestamp : String
deriving DecidableEq, Repr

structure GeneratedDesign where
  id : String
  imageUrl : String
  prompt : String
  conditions : List ResearchCondition
  scores : EvaluationScore
  createdAt : String
  spectrumRatio : Option Rat
deriving DecidableEq, Repr

-- ArchitectureConfig: the twelve-axis structured descriptor.  Literal
-- unions are modelled as String per the erasure convention above.

structure ConfigMeta where
  concept_id : String
  generated_at : String
  confidence : Rat
deriving DecidableEq, Repr

structure BoundaryConfig where
  strategy : Option String
  opacity : Option Rat
  continuity : Option String
  inside_outside : Option String
  tags : List String
deriving DecidableEq, Repr

structure SocialGradientConfig where
  type : Option String
  public_depth : Option String
  transition_character : Option String
  tags : List String
deriving DecidableEq, Repr

structure SpatialHierarchy where
  type : Option String
  transitions : Option String
deriving DecidableEq, Repr

structure SpatialConfig where
  topology : Option String
  hierarchy : SpatialHierarchy
  threshold_quality : Option String
  void_solid_ratio : Option Rat
  tags : List String
deriving DecidableEq, Repr

structure SectionConfig where
  vertical_organization : Option String
  dominant_profile : Option String
  floor_differentiation : Option String
  tags : List String
deriving DecidableEq, Repr

structure FacadeInteriorConfig where
  type : Option String
  surprise_factor : Option String
  tags : List String
deriving DecidableEq, Repr

structure TectonicConfig where
  system : Option String
  expression : Option String
  joint_logic : Option String
  material_honesty : Option Bool
  tags : List String
deriving DecidableEq, Repr

structure MaterialConfig where
  primary : List String
  combination_logic : Option String
  texture : Option String
  weight_impression : Option String
  tags : List String
deriving DecidableEq, Repr

structure ColorConfig where
  presence : Option String
  strategy : Option String
  temperature : Option String
  contrast : Option String
  tags : List String
deriving DecidableEq, Repr

structure GroundConfig where
  relation : Option String
  footprint_logic : Option String
  topographic_response : Option String
  tags : List String
deriving DecidableEq, Repr

structure ScaleConfig where
  human_relation : Option String
  absolute_size : Option String
  internal_variation : Option String
  external_internal_contrast : Option String
  compression_release : Option String
  tags : List String
deriving DecidableEq, Repr

structure LightConfig where
  source_strategy : Option String
  quality : Option String
  temporal_change : Option String
  directionality : Option String
  tags : List String
deriving DecidableEq, Repr

structure PathTopology where
  type : Option String
deriving DecidableEq, Repr

structure ApproachMode where
  type : Option String
deriving DecidableEq, Repr

structure InteriorMode where
  type : Option String
  stages_count : Option Rat
deriving DecidableEq, Repr

structure ClimaxMode where
  present : Option Bool
  character : Option String
  location : Option String
deriving DecidableEq, Repr

structure RevelationMode where
  approach : ApproachMode
  interior : InteriorMode
  climax : ClimaxMode
deriving DecidableEq, Repr

structure EntryCharacter where
  type : Option String
deriving DecidableEq, Repr

structure DestinationMode where
  type : Option String
deriving DecidableEq, Repr

structure VerticalVector where
  type : Option String
  magnitude : Option String
  intention : Option String
  body_awareness : Option String
deriving DecidableEq, Repr

structure GuidanceLevel where
  type : Option String
deriving DecidableEq, Repr

structure MovementConfig where
  path_topology : PathTopology
  revelation_mode : RevelationMode
  entry_character : EntryCharacter
  destination : DestinationMode
  vertical_vector : VerticalVector
  guidance_level : GuidanceLevel
  tags : List String
deriving DecidableEq, Repr

structure ArchitectureConfig where
  meta : ConfigMeta
  boundary : BoundaryConfig
  social_gradient : SocialGradientConfig
  spatial : SpatialConfig
  sectionCfg : SectionConfig
  facade_interior_relationship : FacadeInteriorConfig
  tectonic : TectonicConfig
  material : MaterialConfig
  color : ColorConfig
  ground : GroundConfig
  scale : ScaleConfig
  light : LightConfig
  movement : MovementConfig
deriving DecidableEq, Repr

structure ArchitecturalConcept where
  id : String
  title : String
  description : String
  relatedDomains : List String
  architectureConfig : Option ArchitectureConfig
deriving DecidableEq, Repr

structure ResearchJob where
  id : String
  theme : String
  conditions : List ResearchCondition
  concepts : Option (List ArchitecturalConcept)
  timestamp : String
deriving DecidableEq, Repr

structure GenerateJob where
  id : String
  researchJobId : String
  basePrompt : String
  style : String
  abstractionLevel : Rat
  conditions : List ResearchCondition
  images : List GeneratedImage
  timestamp : String
deriving DecidableEq, Repr

structure DomainEvaluation where
  domain : ResearchDomain
  domainJa : String
  score : Rat
  comment : String
  strengths : List String
  improvements : List String
deriving DecidableEq, Repr

structure EvaluationResult where
  id : String
  evaluations : List DomainEvaluation
  overallScore : Rat
  overallComment : String
  timestamp : String
deriving DecidableEq, Repr

structure ProjectMeta where
  id : String
  name : String
  theme : String
  createdAt : String
  updatedAt : String
deriving DecidableEq, Repr

-- === Persisted per-project document (from src/lib/store.ts) ===

structure RefinedConcept where
  title : String
  description : String
deriving DecidableEq, Repr

structure AtmosphereState where
  presets : List String
  custom : String
deriving DecidableEq, Repr

/-- The complete per-project document (interface PersistedState). -/
structure PersistedState where
  conditions : List ResearchCondition
  researchTheme : String
  generatedDesigns : List GeneratedDesign
  filteredDesigns : List GeneratedDesign
  researchJobs : List ResearchJob
  generateJobs : List GenerateJob
  generateImages : List GeneratedImage
  selectedConcepts : List ArchitecturalConcept
  refinedConcept : Option RefinedConcept
  sceneConstraint : String
  detailImages : List (String × GeneratedImage)
  evaluationResults : List EvaluationResult
  atmosphere : AtmosphereState
deriving DecidableEq, Repr

/-- A stored JSON document viewed against the PersistedState schema: any
subset of the keys may be missing (older documents predate newer fields).
A missing key is modelled as none. -/
structure StoredDoc where
  conditions : Option (List ResearchCondition)
  researchTheme : Option String
  generatedDesigns : Option (List GeneratedDesign)
  filteredDesigns : Option (List GeneratedDesign)
  researchJobs : Option (List ResearchJob)
  generateJobs : Option (List GenerateJob)
  generateImages : Option (List GeneratedImage)
  selectedConcepts : Option (List ArchitecturalConcept)
  refinedConcept : Option (Option RefinedConcept)
  sceneConstraint : Option String
  detailImages : Option (List (String × GeneratedImage))
  evaluationResults : Option (List EvaluationResult)
  atmosphere : Option AtmosphereState
deriving DecidableEq, Repr

/-- defaultState() from src/lib/store.ts. -/
def defaultState : PersistedState where
  conditions := []
  researchTheme := ""
  generatedDesigns := []
  filteredDesigns := []
  researchJobs := []
  generateJobs := []
  generateImages := []
  selectedConcepts := []
  refinedConcept := none
  sceneConstraint := ""
  detailImages := []
  evaluationResults := []
  atmosphere := { presets := [], custom := "" }

/-- The object spread pattern of the source, written as a merge: each key
present in the stored document overrides the default. -/
def spreadDefaults (p : StoredDoc) : PersistedState where
  conditions := p.conditions.getD defaultState.conditions
  researchTheme := p.researchTheme.getD defaultState.researchTheme
  generatedDesigns := p.generatedDesigns.getD defaultState.generatedDesigns
  filteredDesigns := p.filteredDesigns.getD defaultState.filteredDesigns
  researchJobs := p.researchJobs.getD defaultState.researchJobs
  generateJobs := p.generateJobs.getD defaultState.generateJobs
  generateImages := p.generateImages.getD defaultState.generateImages
  selectedConcepts := p.selectedConcepts.getD defaultState.selectedConcepts
  refinedConcept := p.refinedConcept.getD defaultState.refinedConcept
  sceneConstraint := p.sceneConstraint.getD defaultState.sceneConstraint
  detailImages := p.detailImages.getD defaultState.detailImages
  evaluationResults := p.evaluationResults.getD defaultState.evaluationResults
  atmosphere := p.atmosphere.getD defaultState.atmosphere

/-- A complete document as it sits in storage: every key present. -/
def PersistedState.toStored (s : PersistedState) : StoredDoc where
  conditions := some s.conditions
  researchTheme := some s.researchTheme
  generatedDesigns := some s.generatedDesigns
  filteredDesigns := some s.filteredDesigns
  researchJobs := some s.researchJobs
  generateJobs := some s.generateJobs
  generateImages := some s.generateImages
  selectedConcepts := some s.selectedConcepts
  refinedConcept := some s.refinedConcept
  sceneConstraint := some s.sceneConstraint
  detailImages := some s.detailImages
  evaluationResults := some s.evaluationResults
  atmosphere := some s.atmosphere

/-- The empty stored document: no keys at all. -/
def emptyStoredDoc : StoredDoc where
  conditions := none
  researchTheme := none
  generatedDesigns := none
  filteredDesigns := none
  researchJobs := none
  generateJobs := none
  generateImages := none
  selectedConcepts := none
  refinedConcept := none
  sceneConstraint := none
  detailImages := none
  evaluationResults := none
  atmosphere := none

theorem spreadDefaults_toStored (s : PersistedState) :
    spreadDefaults s.toStored = s := rfl

-- === Storage model ===

/-- The meta field of an import/export JSON object; only name and theme
are ever read back by importProject. -/
structure JsonMeta where
  name : Option String
  theme : Option String
deriving DecidableEq

/-- A parsed JSON object, recorded through the projections the store
reads: an optional meta sub-object, an optional state sub-object, and
the interpretation of the object itself as a (partial) state document
(what the object spread of it against the schema yields). -/
structure JsonObj where
  meta : Option JsonMeta
  state : Option StoredDoc
  asState : StoredDoc
deriving DecidableEq

/-- Values held by the synchronous small-value string tier (localStorage).
Serialized text is modelled by the structured value it parses to, with an
explicit constructor for text that is not valid JSON:
* str: a plain identifier string (the current-project pointer); not
  valid JSON text.
* projList: the JSON serialization of a ProjectMeta array.
* jsonDoc: the JSON serialization of an object (legacy or per-project
  state documents).
* malformed: text that JSON.parse rejects. -/
inductive SVal where
  | str (s : String)
  | projList (ps : List ProjectMeta)
  | jsonDoc (d : JsonObj)
  | malformed
deriving DecidableEq

/-- JSON.parse on a stored small-tier value. -/
def parseJson : SVal → Option JsonObj
  | .str _ => none
  | .projList _ => some { meta := none, state := none, asState := emptyStoredDoc }
  | .jsonDoc d => some d
  | .malformed => none

/-- One recorded persistence write, for counting write amplification. -/
inductive WriteOp where
  | lsSet (k : String) (v : SVal)
  | lsRemove (k : String)
  | idbPut (k : String) (v : StoredDoc)
  | idbRemove (k : String)
deriving DecidableEq

/-- The two storage tiers plus an instrumentation trace of every write
performed (most recent last). -/
structure Store where
  ls : List (String × SVal)
  idb : List (String × StoredDoc)
  trace : List WriteOp
deriving DecidableEq

/-- Replace the value at a key in an association list, appending when the
key is absent. -/
def setKey (k : String) (v : α) : List (String × α) → List (String × α)
  | [] => [(k, v)]
  | (k2, v2) :: rest => if k2 == k then (k, v) :: rest else (k2, v2) :: setKey k v rest

/-- Remove a key from an association list. -/
def delKey (k : String) : List (String × α) → List (String × α)
  | [] => []
  | (k2, v2) :: rest => if k2 == k then delKey k rest else (k2, v2) :: delKey k rest

def lsGetItem (st : Store) (k : String) : Option SVal :=
  List.lookup k st.ls

def lsSetItem (st : Store) (k : String) (v : SVal) : Store :=
  { st with ls := setKey k v st.ls, trace := st.trace ++ [.lsSet k v] }

def lsRemoveItem (st : Store) (k : String) : Store :=
  { st with ls := delKey k st.ls, trace := st.trace ++ [.lsRemove k] }

/-- Modelled from the spec: the bulk-tier read of the IndexedDB wrapper
(idbGet of src/lib/storage.ts, which is not among the provided sources);
per spec section 4.1 it reads a JSON document from the bulk tier and
fails soft to absent. -/
def idbGet (st : Store) (k : String) : Option StoredDoc :=
  List.lookup k st.idb

/-- Modelled from the spec: the bulk-tier write of the IndexedDB wrapper
(idbSet of src/lib/storage.ts); per spec section 4.1 it replaces any
prior value at the key. -/
def idbSet (st : Store) (k : String) (v : StoredDoc) : Store :=
  { st with idb := setKey k v st.idb, trace := st.trace ++ [.idbPut k v] }

/-- Modelled from the spec: the bulk-tier delete of the IndexedDB wrapper
(idbDelete of src/lib/storage.ts); per spec section 4.1 it removes a
document, with no error if absent. -/
def idbDelete (st : Store) (k : String) : Store :=
  { st with idb := delKey k st.idb, trace := st.trace ++ [.idbRemove k] }

-- === Keys and helpers (from src/lib/store.ts) ===

def PROJECTS_INDEX_KEY : String := "deductive-design-projects"
def STATE_KEY_BASE : String := "deductive-design-state"
def CURRENT_PROJECT_KEY : String := "deductive-design-current-project"
def LEGACY_STORAGE_KEY : String := "deductive-design-state"
def DEFAULT_PROJECT_ID : String := "default"

def stateKeyFor (projectId : String) : String :=
  STATE_KEY_BASE ++ "-" ++ projectId

/-- loadProjectIndex: JSON.parse of the index key, with any parse failure
or absence yielding the empty list. -/
def loadProjectIndex (st : Store) : List ProjectMeta :=
  match lsGetItem st PROJECTS_INDEX_KEY with
  | some (.projList ps) => ps
  | _ => []

def saveProjectIndex (projects : List ProjectMeta) (st : Store) : Store :=
  lsSetItem st PROJECTS_INDEX_KEY (.projList projects)

/-- loadCurrentProjectId: the raw stored pointer string, defaulting to
"default" when absent.  The key only ever holds a plain id string. -/
def loadCurrentProjectId (st : Store) : String :=
  match lsGetItem st CURRENT_PROJECT_KEY with
  | some (.str s) => s
  | _ => DEFAULT_PROJECT_ID

def saveCurrentProjectId (id : String) (st : Store) : Store :=
  lsSetItem st CURRENT_PROJECT_KEY (.str id)

/-- Truthiness of the researchTheme field read during migration: present
and a non-empty string. -/
def truthyStr : Option String → Bool
  | some s => s ≠ ""
  | none => false

-- === Migration (migrateIfNeeded, src/lib/store.ts lines 69-98) ===

/-- migrateIfNeeded.  The wall clock value new Date().toISOString() is
passed in as the argument now. -/
def migrateIfNeeded (now : String) (st : Store) : Store :=
  let index := loadProjectIndex st
  if index.length > 0 then st
  else
    let legacyRaw := lsGetItem st LEGACY_STORAGE_KEY
    let defaultMeta : ProjectMeta :=
      { id := DEFAULT_PROJECT_ID, name := "Default", theme := ""
        createdAt := now, updatedAt := now }
    match legacyRaw with
    | some v =>
      match parseJson v with
      | some parsed =>
        let meta :=
          if truthyStr parsed.asState.researchTheme then
            { defaultMeta with theme := parsed.asState.researchTheme.getD "" }
          else defaultMeta
        let st := idbSet st (stateKeyFor DEFAULT_PROJECT_ID)
          (PersistedState.toStored (spreadDefaults parsed.asState))
        let st := lsRemoveItem st LEGACY_STORAGE_KEY
        saveCurrentProjectId DEFAULT_PROJECT_ID (saveProjectIndex [meta] st)
      | none =>
        let st := lsRemoveItem st LEGACY_STORAGE_KEY
        saveCurrentProjectId DEFAULT_PROJECT_ID (saveProjectIndex [defaultMeta] st)
    | none =>
      saveCurrentProjectId DEFAULT_PROJECT_ID (saveProjectIndex [defaultMeta] st)

-- === Per-project document load (loadProjectState, lines 146-163) ===

/-- loadProjectState: bulk tier first, then the small-value tier
fallback (migrating the document into the bulk tier when found there),
then pure defaults; the result is always defaults-merged.  Returns the
document together with the possibly-updated store. -/
def loadProjectState (projectId : String) (st : Store) : PersistedState × Store :=
  match idbGet st (stateKeyFor projectId) with
  | some data => (spreadDefaults data, st)
  | none =>
    match lsGetItem st (stateKeyFor projectId) with
    | some raw =>
      match parseJson raw with
      | some parsed =>
        let state := spreadDefaults parsed.asState
        let st := idbSet st (stateKeyFor projectId) (PersistedState.toStored state)
        let st := lsRemoveItem st (stateKeyFor projectId)
        (state, st)
      | none => (defaultState, st)
    | none => (defaultState, st)

-- === Facade model ===

/-- The whole application model: the storage tiers, the module-level
debounced save slot (pendingSave, saveQueued of lines 165-166), and the
reactive in-memory mirror of the provider (currentProjectId, projects,
and the collected document fields, folded into doc). -/
structure Model where
  store : Store
  saveQueued : Bool
  pendingSave : Option (String × PersistedState)
  currentProjectId : String
  projects : List ProjectMeta
  doc : PersistedState
deriving DecidableEq

/-- saveProjectState (lines 168-181): overwrite the single pending-save
slot and make sure a flush is scheduled. -/
def saveProjectState (projectId : String) (state : PersistedState) (m : Model) : Model :=
  { m with pendingSave := some (projectId, state), saveQueued := true }

/-- The requestAnimationFrame callback of saveProjectState: runs only
when a flush was scheduled; writes the pending payload, if any, to the
bulk tier and clears the slot. -/
def flushSave (m : Model) : Model :=
  if m.saveQueued then
    match m.pendingSave with
    | some (pid, s) =>
      { m with saveQueued := false
               store := idbSet m.store (stateKeyFor pid) (PersistedState.toStored s)
               pendingSave := none }
    | none => { m with saveQueued := false }
  else m

-- === Facade operations (AppProvider callbacks, src/lib/store.ts) ===

/-- switchProject (lines 422-430): no-op when already current; otherwise
enqueue a save of the outgoing document, then (in the load continuation)
replace the in-memory state, the current id and the stored pointer. -/
def switchProject (id : String) (m : Model) : Model :=
  if id = m.currentProjectId then m
  else
    let m := saveProjectState m.currentProjectId m.doc m
    let pr := loadProjectState id m.store
    { m with store := saveCurrentProjectId id pr.2
             doc := pr.1
             currentProjectId := id }

/-- createProject (lines 402-420).  The generated fresh id and the wall
clock are passed in as arguments. -/
def createProject (name theme newId now : String) (m : Model) : Model :=
  let m := saveProjectState m.currentProjectId m.doc m
  let newMeta : ProjectMeta :=
    { id := newId, name := name, theme := theme, createdAt := now, updatedAt := now }
  let updated := m.projects ++ [newMeta]
  let m := { m with projects := updated, store := saveProjectIndex updated m.store }
  let newState := { defaultState with researchTheme := theme }
  let m := saveProjectState newId newState m
  { m with doc := newState
           currentProjectId := newId
           store := saveCurrentProjectId newId m.store }

/-- deleteProject (lines 432-451): refuses when the stored index has at
most one entry; otherwise removes the meta and the persisted document,
and when the deleted project was current, loads the first remaining
project in its load continuation. -/
def deleteProject (id : String) (m : Model) : Model :=
  let idx := loadProjectIndex m.store
  if idx.length ≤ 1 then m
  else
    let updated := idx.filter (fun p => p.id != id)
    let m := { m with projects := updated, store := saveProjectIndex updated m.store }
    let m := { m with store := lsRemoveItem (idbDelete m.store (stateKeyFor id)) (stateKeyFor id) }
    if id = m.currentProjectId then
      match updated.head? with
      | some next =>
        let pr := loadProjectState next.id m.store
        { m with store := saveCurrentProjectId next.id pr.2
                 doc := pr.1
                 currentProjectId := next.id }
      | none => m
    else m

/-- duplicateProject (lines 453-481): enqueue a save when duplicating the
current project, clone the meta found in the stored index, register the
new meta, then (in the load continuation, which runs after the
synchronous part) load the source document from storage and enqueue it
under the new id. -/
def duplicateProject (id newId now : String) (m : Model) : Model :=
  let m :=
    if id = m.currentProjectId then saveProjectState m.currentProjectId m.doc m else m
  let idx := loadProjectIndex m.store
  match idx.find? (fun p => p.id == id) with
  | none => m
  | some source =>
    let newMeta : ProjectMeta :=
      { id := newId, name := source.name ++ " (copy)", theme := source.theme
        createdAt := now, updatedAt := now }
    let updated := m.projects ++ [newMeta]
    let m := { m with projects := updated, store := saveProjectIndex updated m.store }
    let pr := loadProjectState id m.store
    saveProjectState newId pr.1 { m with store := pr.2 }

/-- renameProject (lines 483-491). -/
def renameProject (id name now : String) (m : Model) : Model :=
  let updated := m.projects.map (fun p =>
    if p.id = id then { p with name := name, updatedAt := now } else p)
  { m with projects := updated, store := saveProjectIndex updated m.store }

def metaToJson (p : ProjectMeta) : JsonMeta :=
  { name := some p.name, theme := some p.theme }

/-- exportProject (lines 493-501): enqueue a save when exporting the
current project, then serialize the found meta together with the loaded
document.  The serialized text is modelled as the structured object. -/
def exportProject (id : String) (m : Model) : JsonObj × Model :=
  let m :=
    if id = m.currentProjectId then saveProjectState m.currentProjectId m.doc m else m
  let idx := loadProjectIndex m.store
  let meta := idx.find? (fun p => p.id == id)
  let pr := loadProjectState id m.store
  ({ meta := meta.map metaToJson
     state := some (PersistedState.toStored pr.1)
     asState := emptyStoredDoc },
   { m with store := pr.2 })

/-- Text handed to importProject: either not valid JSON, or the JSON
object it parses to. -/
inductive ImportInput where
  | malformed
  | obj (data : JsonObj)
deriving DecidableEq

/-- importProject (lines 503-528).  JSON.parse runs before anything
else, so malformed input surfaces as a thrown exception (Except.error)
with no mutation performed; otherwise the document (the state field when
present, the object itself otherwise) is defaults-merged, enqueued under
a fresh id, registered and made current. -/
def importProject (input : ImportInput) (newId now : String) (m : Model) :
    Except String Model :=
  match input with
  | .malformed => .error "JSON.parse: unexpected token"
  | .obj data =>
    let meta : ProjectMeta :=
      { id := newId
        name := (data.meta.bind (fun j => j.name)).getD "Imported"
        theme := (data.meta.bind (fun j => j.theme)).getD ""
        createdAt := now, updatedAt := now }
    let state := spreadDefaults ((data.state).getD data.asState)
    let m := saveProjectState newId state m
    let updated := m.projects ++ [meta]
    let m := { m with projects := updated, store := saveProjectIndex updated m.store }
    .ok { m with doc := state
                 currentProjectId := newId
                 store := saveCurrentProjectId newId m.store }

/-- The persist-on-change effect (lines 332-342): a UI mutation replaces
the in-memory document, the effect enqueues a save of it for the current
project and bumps the updatedAt stamp of the current project in the
registry. -/
def mutateCurrent (d : PersistedState) (now : String) (m : Model) : Model :=
  let m := { m with doc := d }
  let m := saveProjectState m.currentProjectId m.doc m
  let updated := m.projects.map (fun p =>
    if p.id = m.currentProjectId then { p with updatedAt := now } else p)
  { m with projects := updated, store := saveProjectIndex updated m.store }

/-- One step of the best-effort cleanup loop of the mount effect (lines
312-322): move a project document still sitting in the small-value tier
into the bulk tier. -/
def cleanupOne (st : Store) (p : ProjectMeta) : Store :=
  match lsGetItem st (stateKeyFor p.id) with
  | some raw =>
    match parseJson raw with
    | some parsed =>
      lsRemoveItem
        (idbSet st (stateKeyFor p.id) (PersistedState.toStored (spreadDefaults parsed.asState)))
        (stateKeyFor p.id)
    | none => st
  | none => st

/-- The mount effect (lines 306-329): migrate, read the pointer and the
index, run the cleanup loop, then load and apply the current document. -/
def initApp (now : String) (st : Store) : Model :=
  let st := migrateIfNeeded now st
  let projId := loadCurrentProjectId st
  let projectList := loadProjectIndex st
  let st := projectList.foldl cleanupOne st
  let pr := loadProjectState projId st
  { store := pr.2
    saveQueued := false
    pendingSave := none
    currentProjectId := projId
    projects := projectList
    doc := pr.1 }

-- === Event model: facade operations plus the flush boundary ===

/-- The events that can hit a running application: every facade
operation, a UI mutation with its persist effect, and the scheduled
flush callback. -/
inductive Op where
  | create (name theme newId now : String)
  | switch (id : String)
  | delete (id : String)
  | duplicate (id newId now : String)
  | rename (id name now : String)
  | doImport (input : ImportInput) (newId now : String)
  | doExport (id : String)
  | mutate (d : PersistedState) (now : String)
  | flush
deriving DecidableEq

/-- Apply one event.  A thrown import exception propagates to the caller
and leaves the model unchanged. -/
def stepOp : Op → Model → Model
  | .create name theme newId now, m => createProject name theme newId now m
  | .switch id, m => switchProject id m
  | .delete id, m => deleteProject id m
  | .duplicate id newId now, m => duplicateProject id newId now m
  | .rename id name now, m => renameProject id name now m
  | .doImport input newId now, m =>
    match importProject input newId now m with
    | .ok m2 => m2
    | .error _ => m
  | .doExport id, m => (exportProject id m).2
  | .mutate d now, m => mutateCurrent d now m
  | .flush, m => flushSave m

/-- Freshness of the synthesized id of an event, mirroring the
uniqueness of generateId (Date.now plus a random suffix). -/
def opFresh : Op → Model → Prop
  | .create _ _ newId _, m => ∀ p ∈ m.projects, p.id ≠ newId
  | .duplicate _ newId _, m => ∀ p ∈ m.projects, p.id ≠ newId
  | .doImport _ newId _, m => ∀ p ∈ m.projects, p.id ≠ newId
  | _, _ => True

/-- Reachability by event sequences whose synthesized ids are fresh. -/
inductive Reach : Model → Model → Prop where
  | refl (m : Model) : Reach m m
  | step (o : Op) (m m2 : Model) : Reach m m2 → opFresh o m2 → Reach m (stepOp o m2)

/-- The registry consistency invariant maintained by the facade: the
reactive project list mirrors the stored index, it is never empty, and
project ids are pairwise distinct. -/
def RegistryInv (m : Model) : Prop :=
  m.projects = loadProjectIndex m.store ∧
  m.projects ≠ [] ∧
  (m.projects.map (fun p => p.id)).Nodup

-- === Small lemmas about the storage primitives ===

theorem lookup_setKey_self (k : String) (v : α) (l : List (String × α)) :
    List.lookup k (setKey k v l) = some v := by
  induction l with
  | nil => simp [setKey, List.lookup]
  | cons hd tl ih =>
    obtain ⟨k2, v2⟩ := hd
    by_cases h : k2 = k
    · subst h
      simp [setKey, List.lookup]
    · simp only [setKey, beq_iff_eq, h, if_false, List.lookup]
      rw [show (k == k2) = false from beq_eq_false_iff_ne.mpr (Ne.symm h)]
      exact ih

theorem lookup_setKey_ne (k2 k : String) (v : α) (l : List (String × α))
    (h : k2 ≠ k) : List.lookup k2 (setKey k v l) = List.lookup k2 l := by
  induction l with
  | nil =>
    simp only [setKey, List.lookup]
    rw [show (k2 == k) = false from beq_eq_false_iff_ne.mpr h]
  | cons hd tl ih =>
    obtain ⟨k3, v3⟩ := hd
    by_cases h3 : k3 = k
    · subst h3
      simp only [setKey, beq_self_eq_true, if_true, List.lookup]
      rw [show (k2 == k3) = false from beq_eq_false_iff_ne.mpr h]
    · simp only [setKey, beq_iff_eq, h3, if_false, List.lookup]
      by_cases h4 : k2 = k3
      · rw [show (k2 == k3) = true from beq_iff_eq.mpr h4]
      · rw [show (k2 == k3) = false from beq_eq_false_iff_ne.mpr h4]
        exact ih

theorem lookup_delKey_self (k : String) (l : List (String × α)) :
    List.lookup k (delKey k l) = none := by
  induction l with
  | nil => simp [delKey, List.lookup]
  | cons hd tl ih =>
    obtain ⟨k2, v2⟩ := hd
    by_cases h : k2 = k
    · simp [delKey, h, ih]
    · simp only [delKey, beq_iff_eq, h, if_false, List.lookup]
      rw [show (k == k2) = false from beq_eq_false_iff_ne.mpr (Ne.symm h)]
      exact ih

theorem lookup_delKey_ne (k2 k : String) (l : List (String × α))
    (h : k2 ≠ k) : List.lookup k2 (delKey k l) = List.lookup k2 l := by
  induction l with
  | nil => simp [delKey, List.lookup]
  | cons hd tl ih =>
    obtain ⟨k3, v3⟩ := hd
    by_cases h3 : k3 = k
    · subst h3
      simp only [delKey, beq_self_eq_true, if_true, List.lookup]
      rw [show (k2 == k3) = false from beq_eq_false_iff_ne.mpr h]
      exact ih
    · simp only [delKey, beq_iff_eq, h3, if_false, List.lookup]
      by_cases h4 : k2 = k3
      · rw [show (k2 == k3) = true from beq_iff_eq.mpr h4]
      · rw [show (k2 == k3) = false from beq_eq_false_iff_ne.mpr h4]
        exact ih

-- The per-project bulk keys are disjoint from every fixed small-tier key.

theorem stateKeyFor_ne_projects (pid : String) :
    stateKeyFor pid ≠ PROJECTS_INDEX_KEY := by
  intro h
  have hd : (stateKeyFor pid).data = PROJECTS_INDEX_KEY.data := congrArg String.data h
  simp only [stateKeyFor, STATE_KEY_BASE, PROJECTS_INDEX_KEY] at hd
  rw [String.data_append, String.data_append, List.append_assoc] at hd
  have h2 := congrArg (fun l => l[17]?) hd
  simp only at h2
  rw [List.getElem?_append_left (by decide)] at h2
  revert h2; decide

theorem stateKeyFor_ne_current (pid : String) :
    stateKeyFor pid ≠ CURRENT_PROJECT_KEY := by
  intro h
  have hd : (stateKeyFor pid).data = CURRENT_PROJECT_KEY.data := congrArg String.data h
  simp only [stateKeyFor, STATE_KEY_BASE, CURRENT_PROJECT_KEY] at hd
  rw [String.data_append, String.data_append, List.append_assoc] at hd
  have h2 := congrArg (fun l => l[17]?) hd
  simp only at h2
  rw [List.getElem?_append_left (by decide)] at h2
  revert h2; decide

theorem stateKeyFor_ne_legacy (pid : String) :
    stateKeyFor pid ≠ LEGACY_STORAGE_KEY := by
  intro h
  have hd : (stateKeyFor pid).data = LEGACY_STORAGE_KEY.data := congrArg String.data h
  simp only [stateKeyFor, STATE_KEY_BASE, LEGACY_STORAGE_KEY] at hd
  rw [String.data_append, String.data_append, List.append_assoc] at hd
  have h2 := congrArg (fun l => l[22]?) hd
  simp only at h2
  rw [List.getElem?_append_right (by decide)] at h2
  simp at h2

-- Reading the stored index is unaffected by bulk-tier writes, by writes
-- to the pointer key, and by removal of per-project or legacy keys.

theorem loadProjectIndex_idbSet (st : Store) (k : String) (v : StoredDoc) :
    loadProjectIndex (idbSet st k v) = loadProjectIndex st := rfl

theorem loadProjectIndex_idbDelete (st : Store) (k : String) :
    loadProjectIndex (idbDelete st k) = loadProjectIndex st := rfl

theorem loadProjectIndex_saveCurrent (st : Store) (id : String) :
    loadProjectIndex (saveCurrentProjectId id st) = loadProjectIndex st := by
  unfold loadProjectIndex saveCurrentProjectId lsSetItem lsGetItem
  simp only
  rw [lookup_setKey_ne _ _ _ _ (by decide)]

theorem loadProjectIndex_saveIndex (st : Store) (ps : List ProjectMeta) :
    loadProjectIndex (saveProjectIndex ps st) = ps := by
  unfold loadProjectIndex saveProjectIndex lsSetItem lsGetItem
  simp only
  rw [lookup_setKey_self]

theorem loadProjectIndex_removeStateKey (st : Store) (pid : String) :
    loadProjectIndex (lsRemoveItem st (stateKeyFor pid)) = loadProjectIndex st := by
  unfold loadProjectIndex lsRemoveItem lsGetItem
  simp only
  rw [lookup_delKey_ne _ _ _ (Ne.symm (stateKeyFor_ne_projects pid))]

theorem loadProjectIndex_loadState (pid : String) (st : Store) :
    loadProjectIndex (loadProjectState pid st).2 = loadProjectIndex st := by
  unfold loadProjectState
  split
  · rfl
  · split
    · split
      · simp only
        rw [loadProjectIndex_removeStateKey, loadProjectIndex_idbSet]
      · rfl
    · rfl

theorem loadProjectIndex_cleanupOne (st : Store) (p : ProjectMeta) :
    loadProjectIndex (cleanupOne st p) = loadProjectIndex st := by
  unfold cleanupOne
  split
  · split
    · rw [loadProjectIndex_removeStateKey, loadProjectIndex_idbSet]
    · rfl
  · rfl

theorem idbGet_idbSet_self (st : Store) (k : String) (v : StoredDoc) :
    idbGet (idbSet st k v) k = some v :=
  lookup_setKey_self k v st.idb

theorem idbGet_idbSet_ne (st : Store) (k2 k : String) (v : StoredDoc)
    (h : k2 ≠ k) : idbGet (idbSet st k v) k2 = idbGet st k2 :=
  lookup_setKey_ne k2 k v st.idb h

theorem idbGet_lsSetItem (st : Store) (k : String) (v : SVal) (k2 : String) :
    idbGet (lsSetItem st k v) k2 = idbGet st k2 := rfl

theorem idbGet_lsRemoveItem (st : Store) (k k2 : String) :
    idbGet (lsRemoveItem st k) k2 = idbGet st k2 := rfl

theorem loadProjectState_of_idbGet (pid : String) (st : Store) (d : StoredDoc)
    (h : idbGet st (stateKeyFor pid) = some d) :
    loadProjectState pid st = (spreadDefaults d, st) := by
  unfold loadProjectState
  rw [h]

theorem flushSave_of_pending (m : Model) (pid : String) (s : PersistedState)
    (hq : m.saveQueued = true) (hp : m.pendingSave = some (pid, s)) :
    flushSave m =
      { m with saveQueued := false
               pendingSave := none
               store := idbSet m.store (stateKeyFor pid) s.toStored } := by
  unfold flushSave
  rw [hq, hp]
  rfl

-- === Concrete fixtures used by counterexamples and witnesses ===

def exCondition (k : String) : ResearchCondition :=
  { domain := .environment, notes := k, weight := 1, tags := [], findings := none,
    weightRationale := none, relatedDomains := none }

def exEvaluation (k : String) : EvaluationResult :=
  { id := k, evaluations := [], overallScore := 4, overallComment := "ok", timestamp := "t" }

/-- The persisted (stale) document of project a. -/
def exDocOld : PersistedState := { defaultState with researchTheme := "a-old" }

/-- The in-memory document of project a after unsaved edits: three
research conditions and two evaluation results. -/
def exDocNew : PersistedState :=
  { defaultState with
      researchTheme := "a-new"
      conditions := [exCondition "c1", exCondition "c2", exCondition "c3"]
      evaluationResults := [exEvaluation "e1", exEvaluation "e2"] }

def exDocB : PersistedState := { defaultState with researchTheme := "b" }

def exDocB2 : PersistedState := { defaultState with researchTheme := "b-edited" }

def exMetaA : ProjectMeta :=
  { id := "proj-a", name := "A", theme := "ta", createdAt := "t0", updatedAt := "t0" }

def exMetaB : ProjectMeta :=
  { id := "proj-b", name := "B", theme := "tb", createdAt := "t0", updatedAt := "t0" }

/-- Storage holding projects a and b, with the index and pointer in the
small tier and both documents persisted in the bulk tier. -/
def exStore : Store :=
  { ls := [(PROJECTS_INDEX_KEY, SVal.projList [exMetaA, exMetaB]),
           (CURRENT_PROJECT_KEY, SVal.str "proj-a")]
    idb := [(stateKeyFor "proj-a", exDocOld.toStored),
            (stateKeyFor "proj-b", exDocB.toStored)]
    trace := [] }

/-- Project a current and dirty: its in-memory document has unsaved
edits sitting in the pending-save slot, not yet flushed. -/
def exModel : Model :=
  { store := exStore
    saveQueued := true
    pendingSave := some ("proj-a", exDocNew)
    currentProjectId := "proj-a"
    projects := [exMetaA, exMetaB]
    doc := exDocNew }

-- === C1: switch-flush ordering ===

/-- C1, counterexample: project a is current and dirty (in-memory
document exDocNew, persisted document exDocOld).  switchProject to b
queues the outgoing document, but one further save request (the persist
effect for b) lands before the flush boundary and overwrites the single
global pending-save slot.  After the flush, loading a returns the stale
exDocOld, not the last state saved before the switch, refuting the
claim that the switch-flush ordering survives saves requested between
the switch and the flush. -/
theorem switch_flush_counterexample :
    (loadProjectState "proj-a"
      (flushSave (saveProjectState "proj-b" exDocB2 (switchProject "proj-b" exModel))).store).1
      = exDocOld ∧
    (loadProjectState "proj-a"
      (flushSave (saveProjectState "proj-b" exDocB2 (switchProject "proj-b" exModel))).store).1
      ≠ exDocNew := by
  constructor
  · decide
  · decide

/-- C1, amended: switchProject away from the current project always
places the outgoing in-memory document in the pending-save slot before
the switch proceeds, and provided no further saveProjectState call
arrives before the flush boundary, the flush persists it, so that
loading the outgoing project afterwards returns exactly the in-memory
state at switch time. -/
theorem switch_flush_ordering_amended (m : Model) (B : String)
    (h : B ≠ m.currentProjectId) :
    (switchProject B m).pendingSave = some (m.currentProjectId, m.doc) ∧
    (loadProjectState m.currentProjectId (flushSave (switchProject B m)).store).1 = m.doc := by
  have hsw : switchProject B m =
      { m with pendingSave := some (m.currentProjectId, m.doc)
               saveQueued := true
               store := saveCurrentProjectId B (loadProjectState B m.store).2
               doc := (loadProjectState B m.store).1
               currentProjectId := B } := by
    unfold switchProject
    rw [if_neg h]
    rfl
  constructor
  · rw [hsw]
  · rw [hsw, flushSave_of_pending _ m.currentProjectId m.doc rfl rfl]
    simp only
    rw [loadProjectState_of_idbGet _ _ _ (idbGet_idbSet_self _ _ _)]
    exact spreadDefaults_toStored m.doc

/-- C1, witness for the amended theorem at a concrete dirty model. -/
theorem switch_flush_ordering_amended_witness :
    ("proj-b" : String) ≠ exModel.currentProjectId ∧
    (switchProject "proj-b" exModel).pendingSave = some (exModel.currentProjectId, exModel.doc) ∧
    (loadProjectState exModel.currentProjectId
      (flushSave (switchProject "proj-b" exModel)).store).1 = exModel.doc := by
  refine ⟨by decide, ?_⟩
  exact switch_flush_ordering_amended exModel "proj-b" (by decide)

-- === C2: coalesced save correctness ===

/-- Issue a sequence of saveProjectState calls for one project. -/
def applySaves (pid : String) (ss : List PersistedState) (m : Model) : Model :=
  ss.foldl (fun acc s => saveProjectState pid s acc) m

theorem applySaves_fields (pid : String) (ss : List PersistedState) (m : Model) :
    (applySaves pid ss m).store = m.store ∧
    (applySaves pid ss m).currentProjectId = m.currentProjectId ∧
    (applySaves pid ss m).projects = m.projects ∧
    (applySaves pid ss m).doc = m.doc := by
  induction ss generalizing m with
  | nil => exact ⟨rfl, rfl, rfl, rfl⟩
  | cons s rest ih => exact ih (saveProjectState pid s m)

theorem applySaves_spec (pid : String) (ss : List PersistedState) (m : Model)
    (hne : ss ≠ []) :
    applySaves pid ss m =
      { m with saveQueued := true, pendingSave := some (pid, ss.getLast hne) } := by
  induction ss using List.reverseRecOn generalizing m with
  | nil => exact absurd rfl hne
  | append_singleton l a _ =>
    have hg : (l ++ [a]).getLast hne = a := by
      rw [List.getLast_append]
      simp
    rw [hg]
    obtain ⟨h1, h2, h3, h4⟩ := applySaves_fields pid l m
    have step : applySaves pid (l ++ [a]) m = saveProjectState pid a (applySaves pid l m) := by
      unfold applySaves
      rw [List.foldl_append]
      rfl
    rw [step]
    simp only [saveProjectState, h1, h2, h3, h4]

/-- C2: starting from a quiescent save queue, N saveProjectState calls
for the same project before the flush boundary result, at the flush, in
exactly one bulk-tier write, to that project key, whose content is the
last payload; no intermediate payload is ever written. -/
theorem coalesced_save_correct (m : Model) (pid : String) (ss : List PersistedState)
    (hne : ss ≠ []) (_hnd : ss.Nodup)
    (_hq : m.saveQueued = false) (_hp : m.pendingSave = none) :
    (flushSave (applySaves pid ss m)).store.trace =
      m.store.trace ++ [WriteOp.idbPut (stateKeyFor pid) (ss.getLast hne).toStored] ∧
    idbGet (flushSave (applySaves pid ss m)).store (stateKeyFor pid) =
      some (ss.getLast hne).toStored ∧
    (flushSave (applySaves pid ss m)).pendingSave = none := by
  rw [applySaves_spec pid ss m hne,
    flushSave_of_pending _ pid (ss.getLast hne) rfl rfl]
  refine ⟨rfl, ?_, rfl⟩
  exact idbGet_idbSet_self _ _ _

/-- C2, witness: two distinct saves for one project from a quiescent
model; the flush performs exactly one write holding the second payload. -/
theorem coalesced_save_correct_witness :
    ([exDocOld, exDocNew] : List PersistedState) ≠ [] ∧
    ([exDocOld, exDocNew] : List PersistedState).Nodup ∧
    ({ exModel with saveQueued := false, pendingSave := none } : Model).saveQueued = false ∧
    ({ exModel with saveQueued := false, pendingSave := none } : Model).pendingSave = none ∧
    ((flushSave (applySaves "proj-a" [exDocOld, exDocNew]
        { exModel with saveQueued := false, pendingSave := none })).store.trace =
      ({ exModel with saveQueued := false, pendingSave := none } : Model).store.trace ++
        [WriteOp.idbPut (stateKeyFor "proj-a") exDocNew.toStored] ∧
     idbGet (flushSave (applySaves "proj-a" [exDocOld, exDocNew]
        { exModel with saveQueued := false, pendingSave := none })).store (stateKeyFor "proj-a") =
      some exDocNew.toStored ∧
     (flushSave (applySaves "proj-a" [exDocOld, exDocNew]
        { exModel with saveQueued := false, pendingSave := none })).pendingSave = none) := by
  refine ⟨by decide, by decide, rfl, rfl, ?_⟩
  exact coalesced_save_correct _ "proj-a" [exDocOld, exDocNew]
    (by decide) (by decide) rfl rfl

-- === C3: duplicate copies by value ===

theorem lsGetItem_saveIndex_stateKey (st : Store) (ps : List ProjectMeta) (pid : String) :
    lsGetItem (saveProjectIndex ps st) (stateKeyFor pid) = lsGetItem st (stateKeyFor pid) := by
  unfold saveProjectIndex lsSetItem lsGetItem
  simp only
  exact lookup_setKey_ne _ _ _ _ (stateKeyFor_ne_projects pid)

theorem loadProjectState_fst_saveIndex (pid : String) (ps : List ProjectMeta) (st : Store) :
    (loadProjectState pid (saveProjectIndex ps st)).1 = (loadProjectState pid st).1 := by
  unfold loadProjectState
  rw [show idbGet (saveProjectIndex ps st) (stateKeyFor pid) = idbGet st (stateKeyFor pid) from rfl,
    lsGetItem_saveIndex_stateKey]
  split
  · rfl
  · split
    · split
      · rfl
      · rfl
    · rfl

theorem loadCurrentProjectId_saveIndex (st : Store) (ps : List ProjectMeta) :
    loadCurrentProjectId (saveProjectIndex ps st) = loadCurrentProjectId st := by
  unfold loadCurrentProjectId saveProjectIndex lsSetItem lsGetItem
  simp only
  rw [lookup_setKey_ne _ _ _ _ (by decide)]

theorem loadCurrentProjectId_loadState (pid : String) (st : Store) :
    loadCurrentProjectId (loadProjectState pid st).2 = loadCurrentProjectId st := by
  unfold loadProjectState
  split
  · rfl
  · split
    · split
      · show loadCurrentProjectId (lsRemoveItem _ (stateKeyFor pid)) = _
        unfold loadCurrentProjectId lsRemoveItem lsGetItem
        simp only
        rw [lookup_delKey_ne _ _ _ (Ne.symm (stateKeyFor_ne_current pid))]
        rfl
      · rfl
    · rfl

/-- The meta cloned by duplicateProject. -/
def dupMeta (source : ProjectMeta) (newId now : String) : ProjectMeta :=
  { id := newId, name := source.name ++ " (copy)", theme := source.theme
    createdAt := now, updatedAt := now }

theorem duplicateProject_eq (m : Model) (id newId now : String) (source : ProjectMeta)
    (hfind : (loadProjectIndex m.store).find? (fun p => p.id == id) = some source) :
    duplicateProject id newId now m =
      { m with
          saveQueued := true
          pendingSave := some (newId,
            (loadProjectState id (saveProjectIndex (m.projects ++ [dupMeta source newId now]) m.store)).1)
          projects := m.projects ++ [dupMeta source newId now]
          store :=
            (loadProjectState id (saveProjectIndex (m.projects ++ [dupMeta source newId now]) m.store)).2 } := by
  by_cases hc : id = m.currentProjectId
  · simp only [duplicateProject, if_pos hc, saveProjectState, hfind, dupMeta]
  · simp only [duplicateProject, if_neg hc, saveProjectState, hfind, dupMeta]

/-- C3, counterexample: project a is current with unsaved in-memory
edits (exDocNew, which has 3 research conditions and 2 evaluation
results); its persisted document is the stale exDocOld.  duplicateProject
only queues a save and then reads the bulk tier directly, so the copy
persisted for the new project equals the stale exDocOld, not the source
in-memory document, refuting the claim for the dirty-current case. -/
theorem duplicate_dirty_counterexample :
    exModel.currentProjectId = "proj-a" ∧
    exModel.doc = exDocNew ∧
    idbGet exModel.store (stateKeyFor "proj-a") = some exDocOld.toStored ∧
    exDocNew ≠ exDocOld ∧
    idbGet (flushSave (duplicateProject "proj-a" "proj-new" "t1" exModel)).store
      (stateKeyFor "proj-new") = some exDocOld.toStored ∧
    idbGet (flushSave (duplicateProject "proj-a" "proj-new" "t1" exModel)).store
      (stateKeyFor "proj-new") ≠ some exDocNew.toStored := by
  refine ⟨rfl, rfl, by decide, by decide, by decide, by decide⟩

/-- C3, amended: duplicateProject adds exactly one new ProjectMeta (the
source name with a " (copy)" suffix and the source theme), persists
under the new id a document equal by value to the source document as
persisted (defaults-merged by load) — which equals the source in-memory
document except when the source is the current project with unsaved
edits — and leaves the active project and the stored pointer unchanged. -/
theorem duplicate_copies_persisted (m : Model) (id newId now : String) (source : ProjectMeta)
    (hfind : (loadProjectIndex m.store).find? (fun p => p.id == id) = some source) :
    (duplicateProject id newId now m).projects = m.projects ++ [dupMeta source newId now] ∧
    loadProjectIndex (duplicateProject id newId now m).store =
      m.projects ++ [dupMeta source newId now] ∧
    (duplicateProject id newId now m).currentProjectId = m.currentProjectId ∧
    loadCurrentProjectId (duplicateProject id newId now m).store =
      loadCurrentProjectId m.store ∧
    idbGet (flushSave (duplicateProject id newId now m)).store (stateKeyFor newId) =
      some (PersistedState.toStored (loadProjectState id m.store).1) := by
  rw [duplicateProject_eq m id newId now source hfind]
  refine ⟨rfl, ?_, rfl, ?_, ?_⟩
  · show loadProjectIndex (loadProjectState _ _).2 = _
    rw [loadProjectIndex_loadState, loadProjectIndex_saveIndex]
  · show loadCurrentProjectId (loadProjectState _ _).2 = _
    rw [loadCurrentProjectId_loadState, loadCurrentProjectId_saveIndex]
  · rw [flushSave_of_pending _ newId _ rfl rfl]
    simp only
    rw [idbGet_idbSet_self, loadProjectState_fst_saveIndex]

/-- C3, witness: duplicating project b (not current, persisted document
exDocB) from the concrete model; the new meta and the persisted copy are
as stated. -/
theorem duplicate_copies_persisted_witness :
    (loadProjectIndex exModel.store).find? (fun p => p.id == "proj-b") = some exMetaB ∧
    ((duplicateProject "proj-b" "proj-new" "t1" exModel).projects =
        exModel.projects ++ [dupMeta exMetaB "proj-new" "t1"] ∧
      loadProjectIndex (duplicateProject "proj-b" "proj-new" "t1" exModel).store =
        exModel.projects ++ [dupMeta exMetaB "proj-new" "t1"] ∧
      (duplicateProject "proj-b" "proj-new" "t1" exModel).currentProjectId =
        exModel.currentProjectId ∧
      loadCurrentProjectId (duplicateProject "proj-b" "proj-new" "t1" exModel).store =
        loadCurrentProjectId exModel.store ∧
      idbGet (flushSave (duplicateProject "proj-b" "proj-new" "t1" exModel)).store
        (stateKeyFor "proj-new") =
        some (PersistedState.toStored (loadProjectState "proj-b" exModel.store).1)) := by
  refine ⟨by decide, ?_⟩
  exact duplicate_copies_persisted exModel "proj-b" "proj-new" "t1" exMetaB (by decide)

-- === C4 and C9: migration from the legacy blob ===

theorem migrate_eq_of_legacy_doc (st : Store) (now : String) (d : JsonObj)
    (hEmpty : loadProjectIndex st = [])
    (hLegacy : lsGetItem st LEGACY_STORAGE_KEY = some (SVal.jsonDoc d))
    (ht : truthyStr d.asState.researchTheme = true) :
    migrateIfNeeded now st =
      saveCurrentProjectId DEFAULT_PROJECT_ID (saveProjectIndex
        [{ id := DEFAULT_PROJECT_ID, name := "Default",
           theme := d.asState.researchTheme.getD "",
           createdAt := now, updatedAt := now }]
        (lsRemoveItem
          (idbSet st (stateKeyFor DEFAULT_PROJECT_ID)
            (PersistedState.toStored (spreadDefaults d.asState)))
          LEGACY_STORAGE_KEY)) := by
  simp only [migrateIfNeeded, hEmpty, List.length_nil, gt_iff_lt, lt_self_iff_false,
    if_false, hLegacy, parseJson, ht, if_true]

theorem migrate_eq_of_legacy_malformed (st : Store) (now : String)
    (hEmpty : loadProjectIndex st = [])
    (hLegacy : lsGetItem st LEGACY_STORAGE_KEY = some SVal.malformed) :
    migrateIfNeeded now st =
      saveCurrentProjectId DEFAULT_PROJECT_ID (saveProjectIndex
        [{ id := DEFAULT_PROJECT_ID, name := "Default", theme := ""
           createdAt := now, updatedAt := now }]
        (lsRemoveItem st LEGACY_STORAGE_KEY)) := by
  simp only [migrateIfNeeded, hEmpty, List.length_nil, gt_iff_lt, lt_self_iff_false,
    if_false, hLegacy, parseJson]

theorem lsGetItem_legacy_after_small_writes (st : Store) (ps : List ProjectMeta) (id : String) :
    lsGetItem (saveCurrentProjectId id (saveProjectIndex ps st)) LEGACY_STORAGE_KEY =
      lsGetItem st LEGACY_STORAGE_KEY := by
  unfold saveCurrentProjectId saveProjectIndex lsSetItem lsGetItem
  simp only
  rw [lookup_setKey_ne _ _ _ _ (by decide), lookup_setKey_ne _ _ _ _ (by decide)]

theorem loadCurrentProjectId_saveCurrent (st : Store) (id : String) :
    loadCurrentProjectId (saveCurrentProjectId id st) = id := by
  unfold loadCurrentProjectId saveCurrentProjectId lsSetItem lsGetItem
  simp only
  rw [lookup_setKey_self]

/-- C4: from an empty Registry and a legacy entry parsing to an object
whose researchTheme is "Tokyo infill housing", migration leaves exactly
one ProjectMeta (id "default", theme "Tokyo infill housing"), removes
the legacy key, points the current-project pointer at "default", and
persists the defaults-merged legacy document in the bulk tier under the
per-project key for "default". -/
theorem migration_legacy_success (st : Store) (now : String) (d : JsonObj)
    (hEmpty : loadProjectIndex st = [])
    (hLegacy : lsGetItem st LEGACY_STORAGE_KEY = some (SVal.jsonDoc d))
    (htheme : d.asState.researchTheme = some "Tokyo infill housing") :
    loadProjectIndex (migrateIfNeeded now st) =
      [{ id := "default", name := "Default", theme := "Tokyo infill housing",
         createdAt := now, updatedAt := now }] ∧
    lsGetItem (migrateIfNeeded now st) LEGACY_STORAGE_KEY = none ∧
    loadCurrentProjectId (migrateIfNeeded now st) = "default" ∧
    idbGet (migrateIfNeeded now st) (stateKeyFor "default") =
      some (PersistedState.toStored (spreadDefaults d.asState)) := by
  have ht : truthyStr d.asState.researchTheme = true := by
    rw [htheme]; decide
  rw [migrate_eq_of_legacy_doc st now d hEmpty hLegacy ht]
  refine ⟨?_, ?_, ?_, ?_⟩
  · rw [loadProjectIndex_saveCurrent, loadProjectIndex_saveIndex, htheme]
    rfl
  · rw [lsGetItem_legacy_after_small_writes]
    show List.lookup LEGACY_STORAGE_KEY (delKey LEGACY_STORAGE_KEY _) = none
    exact lookup_delKey_self _ _
  · exact loadCurrentProjectId_saveCurrent _ _
  · show idbGet (idbSet st (stateKeyFor DEFAULT_PROJECT_ID) _) (stateKeyFor "default") = _
    exact idbGet_idbSet_self _ _ _

/-- The legacy single-project blob of the concrete migration scenario. -/
def exLegacyObj : JsonObj :=
  { meta := none, state := none,
    asState := { emptyStoredDoc with researchTheme := some "Tokyo infill housing" } }

/-- A store holding only the legacy blob: empty Registry, nothing in the
bulk tier. -/
def exLegacyStore : Store :=
  { ls := [(LEGACY_STORAGE_KEY, SVal.jsonDoc exLegacyObj)], idb := [], trace := [] }

/-- C4, witness at a concrete one-key store. -/
theorem migration_legacy_success_witness :
    (loadProjectIndex exLegacyStore = [] ∧
      lsGetItem exLegacyStore LEGACY_STORAGE_KEY = some (SVal.jsonDoc exLegacyObj) ∧
      exLegacyObj.asState.researchTheme = some "Tokyo infill housing") ∧
    loadProjectIndex (migrateIfNeeded "t9" exLegacyStore) =
      [{ id := "default", name := "Default", theme := "Tokyo infill housing",
         createdAt := "t9", updatedAt := "t9" }] := by
  refine ⟨⟨by decide, by decide, by decide⟩, ?_⟩
  exact (migration_legacy_success exLegacyStore "t9" exLegacyObj
    (by decide) (by decide) (by decide)).1

/-- C9: from an empty Registry and a legacy entry that is not valid
JSON, migration completes (it is a total function of the model) with a
Registry holding exactly the default ProjectMeta with an empty theme,
the pointer at "default", the legacy key removed, and no bulk-tier
write derived from the malformed payload (the bulk tier is untouched). -/
theorem migration_parse_failure_defaults (st : Store) (now : String)
    (hEmpty : loadProjectIndex st = [])
    (hLegacy : lsGetItem st LEGACY_STORAGE_KEY = some SVal.malformed) :
    loadProjectIndex (migrateIfNeeded now st) =
      [{ id := "default", name := "Default", theme := "",
         createdAt := now, updatedAt := now }] ∧
    loadCurrentProjectId (migrateIfNeeded now st) = "default" ∧
    lsGetItem (migrateIfNeeded now st) LEGACY_STORAGE_KEY = none ∧
    (migrateIfNeeded now st).idb = st.idb := by
  rw [migrate_eq_of_legacy_malformed st now hEmpty hLegacy]
  refine ⟨?_, ?_, ?_, rfl⟩
  · rw [loadProjectIndex_saveCurrent, loadProjectIndex_saveIndex]
    rfl
  · exact loadCurrentProjectId_saveCurrent _ _
  · rw [lsGetItem_legacy_after_small_writes]
    exact lookup_delKey_self _ _

/-- C9, witness at a concrete store holding only a malformed legacy
entry. -/
theorem migration_parse_failure_defaults_witness :
    (loadProjectIndex
        { ls := [(LEGACY_STORAGE_KEY, SVal.malformed)], idb := [], trace := [] } = [] ∧
      lsGetItem { ls := [(LEGACY_STORAGE_KEY, SVal.malformed)], idb := [], trace := [] }
        LEGACY_STORAGE_KEY = some SVal.malformed) ∧
    (migrateIfNeeded "t9"
      { ls := [(LEGACY_STORAGE_KEY, SVal.malformed)], idb := [], trace := [] }).idb = [] := by
  refine ⟨⟨by decide, by decide⟩, ?_⟩
  exact (migration_parse_failure_defaults _ "t9" (by decide) (by decide)).2.2.2

-- === C5: idempotent migration ===

theorem migrateIfNeeded_of_nonempty (st : Store) (now : String)
    (h : loadProjectIndex st ≠ []) : migrateIfNeeded now st = st := by
  unfold migrateIfNeeded
  simp only
  rw [if_pos]
  exact List.length_pos.mpr h

theorem loadProjectIndex_migrate_of_empty (st : Store) (now : String)
    (hEmpty : loadProjectIndex st = []) :
    (loadProjectIndex (migrateIfNeeded now st)).length = 1 := by
  unfold migrateIfNeeded
  simp only [hEmpty, List.length_nil, gt_iff_lt, lt_self_iff_false, if_false]
  split
  · split
    · rw [loadProjectIndex_saveCurrent, loadProjectIndex_saveIndex]
      rfl
    · rw [loadProjectIndex_saveCurrent, loadProjectIndex_saveIndex]
      rfl
  · rw [loadProjectIndex_saveCurrent, loadProjectIndex_saveIndex]
    rfl

/-- C5: running the migration routine twice produces exactly the same
storage state (registry, pointer, documents, and even the write trace)
as running it once, and a run that finds a non-empty Registry performs
no writes at all: it returns the storage unchanged. -/
theorem migration_idempotent :
    (∀ (st : Store) (now1 now2 : String),
      migrateIfNeeded now2 (migrateIfNeeded now1 st) = migrateIfNeeded now1 st) ∧
    (∀ (st : Store) (now : String),
      loadProjectIndex st ≠ [] → migrateIfNeeded now st = st) := by
  refine ⟨?_, migrateIfNeeded_of_nonempty⟩
  intro st now1 now2
  by_cases h : loadProjectIndex st = []
  · have hlen := loadProjectIndex_migrate_of_empty st now1 h
    apply migrateIfNeeded_of_nonempty
    intro hcon
    rw [hcon] at hlen
    exact absurd hlen (by decide)
  · rw [migrateIfNeeded_of_nonempty st now1 h, migrateIfNeeded_of_nonempty st now2 h]

/-- C5, witness: the second conjunct applied at a concrete non-empty
store, and the first at a concrete store. -/
theorem migration_idempotent_witness :
    loadProjectIndex exStore ≠ [] ∧
    migrateIfNeeded "t1" exStore = exStore ∧
    migrateIfNeeded "t2" (migrateIfNeeded "t1" exStore) = migrateIfNeeded "t1" exStore := by
  refine ⟨by decide, ?_, ?_⟩
  · exact migration_idempotent.2 exStore "t1" (by decide)
  · exact migration_idempotent.1 exStore "t1" "t2"

-- === C6: defaults merge completeness ===

/-- C6: loadProjectState always returns a defaults-merge of some stored
document (so every schema field is present and typed — the result lives
in the complete PersistedState record); spreadDefaults fills every field
missing from the stored document with the defined default and keeps
every present field; and the no-document case yields exactly the
defaults. -/
theorem load_defaults_merge_complete :
    (∀ (pid : String) (st : Store), ∃ p : StoredDoc,
      (loadProjectState pid st).1 = spreadDefaults p) ∧
    (∀ (pid : String) (st : Store) (d : StoredDoc),
      idbGet st (stateKeyFor pid) = some d →
      (loadProjectState pid st).1 = spreadDefaults d) ∧
    (∀ (pid : String) (st : Store),
      idbGet st (stateKeyFor pid) = none →
      lsGetItem st (stateKeyFor pid) = none →
      (loadProjectState pid st).1 = defaultState) ∧
    (∀ p : StoredDoc,
      (spreadDefaults p).conditions = p.conditions.getD [] ∧
      (spreadDefaults p).researchTheme = p.researchTheme.getD "" ∧
      (spreadDefaults p).generatedDesigns = p.generatedDesigns.getD [] ∧
      (spreadDefaults p).filteredDesigns = p.filteredDesigns.getD [] ∧
      (spreadDefaults p).researchJobs = p.researchJobs.getD [] ∧
      (spreadDefaults p).generateJobs = p.generateJobs.getD [] ∧
      (spreadDefaults p).generateImages = p.generateImages.getD [] ∧
      (spreadDefaults p).selectedConcepts = p.selectedConcepts.getD [] ∧
      (spreadDefaults p).refinedConcept = p.refinedConcept.getD none ∧
      (spreadDefaults p).sceneConstraint = p.sceneConstraint.getD "" ∧
      (spreadDefaults p).detailImages = p.detailImages.getD [] ∧
      (spreadDefaults p).evaluationResults = p.evaluationResults.getD [] ∧
      (spreadDefaults p).atmosphere = p.atmosphere.getD { presets := [], custom := "" }) ∧
    defaultState = spreadDefaults emptyStoredDoc := by
  refine ⟨?_, ?_, ?_, ?_, rfl⟩
  · intro pid st
    unfold loadProjectState
    split
    · exact ⟨_, rfl⟩
    · split
      · split
        · exact ⟨_, rfl⟩
        · exact ⟨emptyStoredDoc, rfl⟩
      · exact ⟨emptyStoredDoc, rfl⟩
  · intro pid st d h
    rw [loadProjectState_of_idbGet pid st d h]
  · intro pid st h1 h2
    unfold loadProjectState
    rw [h1, h2]
  · intro p
    exact ⟨rfl, rfl, rfl, rfl, rfl, rfl, rfl, rfl, rfl, rfl, rfl, rfl, rfl⟩

/-- C6, witness: the explicit-case conjuncts applied at concrete
stores — a stored document missing most fields is completed from the
defaults, and an empty store yields exactly the defaults. -/
theorem load_defaults_merge_complete_witness :
    (idbGet exStore (stateKeyFor "proj-a") = some exDocOld.toStored ∧
      (loadProjectState "proj-a" exStore).1 = spreadDefaults exDocOld.toStored) ∧
    (idbGet exLegacyStore (stateKeyFor "proj-a") = none ∧
      lsGetItem exLegacyStore (stateKeyFor "proj-a") = none ∧
      (loadProjectState "proj-a" exLegacyStore).1 = defaultState) := by
  refine ⟨⟨by decide, ?_⟩, by decide, by decide, ?_⟩
  · exact load_defaults_merge_complete.2.1 "proj-a" exStore exDocOld.toStored (by decide)
  · exact load_defaults_merge_complete.2.2.1 "proj-a" exLegacyStore (by decide) (by decide)

-- === C7: export/import round trip ===

/-- C7: importing the serialized text produced by exportProject always
succeeds, and the document persisted (at the flush) under the newly
synthesized id is deep-equal to the exported project document at export
time (the defaults-merged document load returned for it). -/
theorem export_import_round_trip (m : Model) (id newId now : String) :
    ∃ m2,
      importProject (ImportInput.obj (exportProject id m).1) newId now
        (exportProject id m).2 = Except.ok m2 ∧
      idbGet (flushSave m2).store (stateKeyFor newId) =
        some (PersistedState.toStored (loadProjectState id m.store).1) := by
  refine ⟨_, rfl, ?_⟩
  rw [flushSave_of_pending _ newId _ rfl rfl]
  simp only
  rw [idbGet_idbSet_self]
  by_cases hc : id = m.currentProjectId
  · simp only [exportProject, if_pos hc, saveProjectState, Option.getD_some]
    rw [spreadDefaults_toStored]
  · simp only [exportProject, if_neg hc, Option.getD_some]
    rw [spreadDefaults_toStored]

-- === C10: importProject propagates parse errors atomically ===

/-- C10: on text that is not valid JSON, importProject throws the parse
exception to its caller (models as Except.error), and since parsing
precedes every mutation, the model — registry, pointer, in-memory state
and pending-save slot — is left unchanged, as the event step shows. -/
theorem import_malformed_throws (m : Model) (newId now : String) :
    importProject ImportInput.malformed newId now m =
      Except.error "JSON.parse: unexpected token" ∧
    stepOp (Op.doImport ImportInput.malformed newId now) m = m := ⟨rfl, rfl⟩

-- === C8: registry invariant and last-project protection ===

theorem nodup_ids_append (l : List ProjectMeta) (nm : ProjectMeta)
    (h : (l.map (fun p => p.id)).Nodup) (hf : ∀ p ∈ l, p.id ≠ nm.id) :
    ((l ++ [nm]).map (fun p => p.id)).Nodup := by
  rw [List.map_append, List.nodup_append]
  refine ⟨h, List.nodup_singleton _, ?_⟩
  intro x hx hx2
  obtain ⟨p, hp, hpid⟩ := List.mem_map.mp hx
  simp only [List.map_cons, List.map_nil, List.mem_singleton] at hx2
  exact hf p hp (by rw [hpid, hx2])

theorem nodup_ids_filter (l : List ProjectMeta) (pred : ProjectMeta → Bool)
    (h : (l.map (fun p => p.id)).Nodup) :
    ((l.filter pred).map (fun p => p.id)).Nodup :=
  ((List.filter_sublist l).map (fun p => p.id)).nodup h

theorem filter_ne_ne_nil (l : List ProjectMeta) (id : String)
    (h : (l.map (fun p => p.id)).Nodup) (hlen : 2 ≤ l.length) :
    l.filter (fun p => p.id != id) ≠ [] := by
  induction l with
  | nil => simp at hlen
  | cons p t ih =>
    rw [List.map_cons, List.nodup_cons] at h
    by_cases hp : p.id = id
    · have htfull : t.filter (fun q => q.id != id) = t := by
        apply List.filter_eq_self.mpr
        intro q hq
        have : q.id ≠ id := by
          intro he
          exact h.1 (List.mem_map.mpr ⟨q, hq, by rw [he, hp]⟩)
        simp [this]
      have ht : t ≠ [] := by
        intro hcon
        rw [hcon] at hlen
        simp at hlen
      simp only [List.filter_cons, hp]
      simp only [bne_self_eq_false, Bool.false_eq_true, if_false, htfull]
      exact ht
    · simp only [List.filter_cons]
      rw [if_pos (by simp [hp])]
      exact List.cons_ne_nil _ _

theorem nodup_ids_map_preserving (l : List ProjectMeta) (f : ProjectMeta → ProjectMeta)
    (hid : ∀ p, (f p).id = p.id) :
    (l.map f).map (fun p => p.id) = l.map (fun p => p.id) := by
  rw [List.map_map]
  have : (fun p => p.id) ∘ f = fun p => p.id := funext fun p => hid p
  rw [this]

theorem registryInv_nonempty_index (m : Model) (hInv : RegistryInv m) :
    loadProjectIndex m.store ≠ [] := by
  rw [← hInv.1]
  exact hInv.2.1

/-- The fresh meta written by createProject. -/
def createMeta (name theme newId now : String) : ProjectMeta :=
  { id := newId, name := name, theme := theme, createdAt := now, updatedAt := now }

theorem createProject_eq (name theme newId now : String) (m : Model) :
    createProject name theme newId now m =
      { m with
          saveQueued := true
          pendingSave := some (newId, { defaultState with researchTheme := theme })
          projects := m.projects ++ [createMeta name theme newId now]
          currentProjectId := newId
          doc := { defaultState with researchTheme := theme }
          store := saveCurrentProjectId newId
            (saveProjectIndex (m.projects ++ [createMeta name theme newId now]) m.store) } := rfl

/-- The meta synthesized by importProject. -/
def importMeta (data : JsonObj) (newId now : String) : ProjectMeta :=
  { id := newId
    name := (data.meta.bind (fun j => j.name)).getD "Imported"
    theme := (data.meta.bind (fun j => j.theme)).getD ""
    createdAt := now, updatedAt := now }

theorem importProject_obj_eq (data : JsonObj) (newId now : String) (m : Model) :
    importProject (ImportInput.obj data) newId now m =
      Except.ok
        { m with
            saveQueued := true
            pendingSave := some (newId, spreadDefaults (data.state.getD data.asState))
            projects := m.projects ++ [importMeta data newId now]
            currentProjectId := newId
            doc := spreadDefaults (data.state.getD data.asState)
            store := saveCurrentProjectId newId
              (saveProjectIndex (m.projects ++ [importMeta data newId now]) m.store) } := rfl

theorem mutateCurrent_eq (d : PersistedState) (now : String) (m : Model) :
    mutateCurrent d now m =
      { m with
          doc := d
          saveQueued := true
          pendingSave := some (m.currentProjectId, d)
          projects := m.projects.map (fun p =>
            if p.id = m.currentProjectId then { p with updatedAt := now } else p)
          store := saveProjectIndex (m.projects.map (fun p =>
            if p.id = m.currentProjectId then { p with updatedAt := now } else p)) m.store } := rfl

theorem renameProject_eq (id name now : String) (m : Model) :
    renameProject id name now m =
      { m with
          projects := m.projects.map (fun p =>
            if p.id = id then { p with name := name, updatedAt := now } else p)
          store := saveProjectIndex (m.projects.map (fun p =>
            if p.id = id then { p with name := name, updatedAt := now } else p)) m.store } := rfl

theorem registryInv_create (name theme newId now : String) (m : Model)
    (hInv : RegistryInv m) (hf : ∀ p ∈ m.projects, p.id ≠ newId) :
    RegistryInv (createProject name theme newId now m) := by
  obtain ⟨h1, h2, h3⟩ := hInv
  rw [createProject_eq]
  refine ⟨?_, by simp, ?_⟩
  · show m.projects ++ [createMeta name theme newId now] =
      loadProjectIndex (saveCurrentProjectId newId
        (saveProjectIndex (m.projects ++ [createMeta name theme newId now]) m.store))
    rw [loadProjectIndex_saveCurrent, loadProjectIndex_saveIndex]
  · exact nodup_ids_append m.projects (createMeta name theme newId now) h3 hf

theorem registryInv_switch (id : String) (m : Model) (hInv : RegistryInv m) :
    RegistryInv (switchProject id m) := by
  obtain ⟨h1, h2, h3⟩ := hInv
  unfold switchProject
  by_cases hc : id = m.currentProjectId
  · rw [if_pos hc]
    exact ⟨h1, h2, h3⟩
  · rw [if_neg hc]
    refine ⟨?_, h2, h3⟩
    show m.projects = loadProjectIndex
      (saveCurrentProjectId id (loadProjectState id m.store).2)
    rw [loadProjectIndex_saveCurrent, loadProjectIndex_loadState]
    exact h1

theorem registryInv_rename (id name now : String) (m : Model) (hInv : RegistryInv m) :
    RegistryInv (renameProject id name now m) := by
  obtain ⟨h1, h2, h3⟩ := hInv
  rw [renameProject_eq]
  refine ⟨?_, ?_, ?_⟩
  · show m.projects.map (fun p => if p.id = id then { p with name := name, updatedAt := now } else p) =
      loadProjectIndex (saveProjectIndex (m.projects.map (fun p =>
        if p.id = id then { p with name := name, updatedAt := now } else p)) m.store)
    rw [loadProjectIndex_saveIndex]
  · intro hcon
    exact h2 (List.map_eq_nil_iff.mp hcon)
  · show ((m.projects.map (fun p =>
      if p.id = id then { p with name := name, updatedAt := now } else p)).map (fun p => p.id)).Nodup
    rw [nodup_ids_map_preserving _ _ (fun p => by split <;> rfl)]
    exact h3

theorem registryInv_mutate (d : PersistedState) (now : String) (m : Model)
    (hInv : RegistryInv m) : RegistryInv (mutateCurrent d now m) := by
  obtain ⟨h1, h2, h3⟩ := hInv
  rw [mutateCurrent_eq]
  refine ⟨?_, ?_, ?_⟩
  · show m.projects.map (fun p => if p.id = m.currentProjectId then { p with updatedAt := now } else p) =
      loadProjectIndex (saveProjectIndex (m.projects.map (fun p =>
        if p.id = m.currentProjectId then { p with updatedAt := now } else p)) m.store)
    rw [loadProjectIndex_saveIndex]
  · intro hcon
    exact h2 (List.map_eq_nil_iff.mp hcon)
  · show ((m.projects.map (fun p =>
      if p.id = m.currentProjectId then { p with updatedAt := now } else p)).map (fun p => p.id)).Nodup
    rw [nodup_ids_map_preserving _ _ (fun p => by split <;> rfl)]
    exact h3

theorem registryInv_import (input : ImportInput) (newId now : String) (m : Model)
    (hInv : RegistryInv m) (hf : ∀ p ∈ m.projects, p.id ≠ newId) :
    RegistryInv (stepOp (Op.doImport input newId now) m) := by
  obtain ⟨h1, h2, h3⟩ := hInv
  cases input with
  | malformed => exact ⟨h1, h2, h3⟩
  | obj data =>
    show RegistryInv (match importProject (ImportInput.obj data) newId now m with
      | .ok m2 => m2
      | .error _ => m)
    rw [importProject_obj_eq]
    refine ⟨?_, by simp, ?_⟩
    · show m.projects ++ [importMeta data newId now] =
        loadProjectIndex (saveCurrentProjectId newId
          (saveProjectIndex (m.projects ++ [importMeta data newId now]) m.store))
      rw [loadProjectIndex_saveCurrent, loadProjectIndex_saveIndex]
    · exact nodup_ids_append m.projects (importMeta data newId now) h3 hf

theorem registryInv_export (id : String) (m : Model) (hInv : RegistryInv m) :
    RegistryInv (exportProject id m).2 := by
  obtain ⟨h1, h2, h3⟩ := hInv
  unfold exportProject
  by_cases hc : id = m.currentProjectId
  · rw [if_pos hc]
    refine ⟨?_, h2, h3⟩
    show m.projects = loadProjectIndex (loadProjectState id m.store).2
    rw [loadProjectIndex_loadState]
    exact h1
  · rw [if_neg hc]
    refine ⟨?_, h2, h3⟩
    show m.projects = loadProjectIndex (loadProjectState id m.store).2
    rw [loadProjectIndex_loadState]
    exact h1

theorem registryInv_flush (m : Model) (hInv : RegistryInv m) :
    RegistryInv (flushSave m) := by
  obtain ⟨h1, h2, h3⟩ := hInv
  by_cases hq : m.saveQueued = true
  · cases hp : m.pendingSave with
    | none =>
      unfold flushSave
      rw [hq, hp]
      exact ⟨h1, h2, h3⟩
    | some pair =>
      obtain ⟨pid, s⟩ := pair
      rw [flushSave_of_pending m pid s hq hp]
      refine ⟨?_, h2, h3⟩
      show m.projects = loadProjectIndex (idbSet m.store (stateKeyFor pid) s.toStored)
      rw [loadProjectIndex_idbSet]
      exact h1
  · unfold flushSave
    rw [if_neg hq]
    exact ⟨h1, h2, h3⟩

theorem deleteProject_eq_current (m : Model) (id : String) (next : ProjectMeta)
    (hlen : ¬ (loadProjectIndex m.store).length ≤ 1)
    (hc : id = m.currentProjectId)
    (hh : ((loadProjectIndex m.store).filter (fun p => p.id != id)).head? = some next) :
    deleteProject id m =
      { m with
          projects := (loadProjectIndex m.store).filter (fun p => p.id != id)
          currentProjectId := next.id
          doc := (loadProjectState next.id
            (lsRemoveItem (idbDelete
              (saveProjectIndex ((loadProjectIndex m.store).filter (fun p => p.id != id)) m.store)
              (stateKeyFor id)) (stateKeyFor id))).1
          store := saveCurrentProjectId next.id
            (loadProjectState next.id
              (lsRemoveItem (idbDelete
                (saveProjectIndex ((loadProjectIndex m.store).filter (fun p => p.id != id)) m.store)
                (stateKeyFor id)) (stateKeyFor id))).2 } := by
  simp only [deleteProject, if_neg hlen, if_pos hc, hh]

theorem deleteProject_eq_noncurrent (m : Model) (id : String)
    (hlen : ¬ (loadProjectIndex m.store).length ≤ 1)
    (hc : ¬ id = m.currentProjectId) :
    deleteProject id m =
      { m with
          projects := (loadProjectIndex m.store).filter (fun p => p.id != id)
          store := lsRemoveItem (idbDelete
            (saveProjectIndex ((loadProjectIndex m.store).filter (fun p => p.id != id)) m.store)
            (stateKeyFor id)) (stateKeyFor id) } := by
  simp only [deleteProject, if_neg hlen, if_neg hc]

theorem registryInv_delete (id : String) (m : Model) (hInv : RegistryInv m) :
    RegistryInv (deleteProject id m) := by
  obtain ⟨h1, h2, h3⟩ := hInv
  by_cases hlen : (loadProjectIndex m.store).length ≤ 1
  · have hdel : deleteProject id m = m := by
      simp [deleteProject, hlen]
    rw [hdel]
    exact ⟨h1, h2, h3⟩
  · have h2b : 2 ≤ (loadProjectIndex m.store).length := by omega
    have hnd : ((loadProjectIndex m.store).map (fun p => p.id)).Nodup := by
      rw [← h1]; exact h3
    have hfil : (loadProjectIndex m.store).filter (fun p => p.id != id) ≠ [] :=
      filter_ne_ne_nil _ id hnd h2b
    have hndf : (((loadProjectIndex m.store).filter (fun p => p.id != id)).map
        (fun p => p.id)).Nodup := nodup_ids_filter _ _ hnd
    by_cases hc : id = m.currentProjectId
    · cases hh : ((loadProjectIndex m.store).filter (fun p => p.id != id)).head? with
      | none => exact absurd (List.head?_eq_none_iff.mp hh) hfil
      | some next =>
        rw [deleteProject_eq_current m id next hlen hc hh]
        refine ⟨?_, hfil, hndf⟩
        show (loadProjectIndex m.store).filter (fun p => p.id != id) =
          loadProjectIndex (saveCurrentProjectId next.id
            (loadProjectState next.id
              (lsRemoveItem (idbDelete
                (saveProjectIndex ((loadProjectIndex m.store).filter (fun p => p.id != id)) m.store)
                (stateKeyFor id)) (stateKeyFor id))).2)
        rw [loadProjectIndex_saveCurrent, loadProjectIndex_loadState,
          loadProjectIndex_removeStateKey, loadProjectIndex_idbDelete,
          loadProjectIndex_saveIndex]
    · rw [deleteProject_eq_noncurrent m id hlen hc]
      refine ⟨?_, hfil, hndf⟩
      show (loadProjectIndex m.store).filter (fun p => p.id != id) =
        loadProjectIndex (lsRemoveItem (idbDelete
          (saveProjectIndex ((loadProjectIndex m.store).filter (fun p => p.id != id)) m.store)
          (stateKeyFor id)) (stateKeyFor id))
      rw [loadProjectIndex_removeStateKey, loadProjectIndex_idbDelete,
        loadProjectIndex_saveIndex]

theorem registryInv_duplicate (id newId now : String) (m : Model)
    (hInv : RegistryInv m) (hf : ∀ p ∈ m.projects, p.id ≠ newId) :
    RegistryInv (duplicateProject id newId now m) := by
  obtain ⟨h1, h2, h3⟩ := hInv
  cases hfind : (loadProjectIndex m.store).find? (fun p => p.id == id) with
  | none =>
    by_cases hc : id = m.currentProjectId
    · have hdup : duplicateProject id newId now m =
          { m with saveQueued := true, pendingSave := some (m.currentProjectId, m.doc) } := by
        simp only [duplicateProject, if_pos hc, saveProjectState, hfind]
      rw [hdup]
      exact ⟨h1, h2, h3⟩
    · have hdup : duplicateProject id newId now m = m := by
        simp only [duplicateProject, if_neg hc, hfind]
      rw [hdup]
      exact ⟨h1, h2, h3⟩
  | some source =>
    rw [duplicateProject_eq m id newId now source hfind]
    refine ⟨?_, by simp, ?_⟩
    · show m.projects ++ [dupMeta source newId now] =
        loadProjectIndex (loadProjectState id
          (saveProjectIndex (m.projects ++ [dupMeta source newId now]) m.store)).2
      rw [loadProjectIndex_loadState, loadProjectIndex_saveIndex]
    · exact nodup_ids_append m.projects (dupMeta source newId now) h3 (fun p hp => hf p hp)

theorem stepOp_registryInv (o : Op) (m : Model)
    (hInv : RegistryInv m) (hF : opFresh o m) : RegistryInv (stepOp o m) := by
  cases o with
  | create name theme newId now => exact registryInv_create name theme newId now m hInv hF
  | switch id => exact registryInv_switch id m hInv
  | delete id => exact registryInv_delete id m hInv
  | duplicate id newId now => exact registryInv_duplicate id newId now m hInv hF
  | rename id name now => exact registryInv_rename id name now m hInv
  | doImport input newId now => exact registryInv_import input newId now m hInv hF
  | doExport id => exact registryInv_export id m hInv
  | mutate d now => exact registryInv_mutate d now m hInv
  | flush => exact registryInv_flush m hInv

theorem reach_registryInv (m m2 : Model) (hInv : RegistryInv m) (hr : Reach m m2) :
    RegistryInv m2 := by
  induction hr with
  | refl _ => exact hInv
  | step o mm mm2 _ hfresh ih => exact stepOp_registryInv o mm2 (ih hInv) hfresh

theorem loadProjectIndex_cleanup_fold (l : List ProjectMeta) (st : Store) :
    loadProjectIndex (l.foldl cleanupOne st) = loadProjectIndex st := by
  induction l generalizing st with
  | nil => rfl
  | cons p t ih =>
    rw [List.foldl_cons, ih, loadProjectIndex_cleanupOne]

theorem registryInv_initApp (st : Store) (now : String)
    (hnd : ((loadProjectIndex st).map (fun p => p.id)).Nodup) :
    RegistryInv (initApp now st) := by
  have hidx : loadProjectIndex (initApp now st).store =
      loadProjectIndex (migrateIfNeeded now st) := by
    show loadProjectIndex (loadProjectState _ _).2 = _
    rw [loadProjectIndex_loadState, loadProjectIndex_cleanup_fold]
  by_cases h : loadProjectIndex st = []
  · have hlen := loadProjectIndex_migrate_of_empty st now h
    obtain ⟨p, hp⟩ := List.length_eq_one.mp hlen
    refine ⟨?_, ?_, ?_⟩
    · show loadProjectIndex (migrateIfNeeded now st) = _
      rw [hidx]
    · show loadProjectIndex (migrateIfNeeded now st) ≠ []
      rw [hp]
      exact List.cons_ne_nil _ _
    · show ((loadProjectIndex (migrateIfNeeded now st)).map (fun q => q.id)).Nodup
      rw [hp]
      exact List.nodup_singleton _
  · have hskip : migrateIfNeeded now st = st := migrateIfNeeded_of_nonempty st now h
    refine ⟨?_, ?_, ?_⟩
    · show loadProjectIndex (migrateIfNeeded now st) = _
      rw [hidx]
    · show loadProjectIndex (migrateIfNeeded now st) ≠ []
      rw [hskip]
      exact h
    · show ((loadProjectIndex (migrateIfNeeded now st)).map (fun q => q.id)).Nodup
      rw [hskip]
      exact hnd

/-- C8: the mount sequence (migration included) establishes the registry
consistency invariant whenever the pre-existing index has no duplicate
ids (trivially true for the empty index migration starts from); every
facade event with a fresh synthesized id preserves it, so every model
reachable after initialization keeps at least one project in both the
reactive list and the stored Registry; and deleteProject against a
Registry with at most one entry is a complete no-op: the whole model —
registry, persisted documents, pointer, memory — is returned unchanged. -/
theorem registry_invariant_protection :
    (∀ (st : Store) (now : String),
      ((loadProjectIndex st).map (fun p => p.id)).Nodup →
      RegistryInv (initApp now st)) ∧
    (∀ (m m2 : Model), RegistryInv m → Reach m m2 →
      m2.projects ≠ [] ∧ loadProjectIndex m2.store ≠ []) ∧
    (∀ (m : Model) (id : String),
      (loadProjectIndex m.store).length ≤ 1 → deleteProject id m = m) := by
  refine ⟨registryInv_initApp, ?_, ?_⟩
  · intro m m2 hInv hr
    have h2 := reach_registryInv m m2 hInv hr
    exact ⟨h2.2.1, registryInv_nonempty_index m2 h2⟩
  · intro m id h
    simp [deleteProject, h]

/-- A store holding a single project, for the last-project witness. -/
def exSingleStore : Store :=
  { ls := [(PROJECTS_INDEX_KEY, SVal.projList [exMetaA]),
           (CURRENT_PROJECT_KEY, SVal.str "proj-a")]
    idb := [(stateKeyFor "proj-a", exDocOld.toStored)], trace := [] }

/-- A model whose Registry holds exactly one project. -/
def exSingleModel : Model :=
  { store := exSingleStore, saveQueued := false, pendingSave := none,
    currentProjectId := "proj-a", projects := [exMetaA], doc := exDocOld }

/-- C8, witness: initialization from the concrete legacy store
establishes the invariant; reachability instantiated at the concrete
two-project model; deleting the only project of the one-project model
changes nothing. -/
theorem registry_invariant_protection_witness :
    ((loadProjectIndex exLegacyStore).map (fun p => p.id)).Nodup ∧
    RegistryInv (initApp "t0" exLegacyStore) ∧
    RegistryInv exModel ∧
    (exModel.projects ≠ [] ∧ loadProjectIndex exModel.store ≠ []) ∧
    (loadProjectIndex exSingleModel.store).length ≤ 1 ∧
    deleteProject "proj-a" exSingleModel = exSingleModel := by
  refine ⟨by decide, ?_, ⟨by decide, by decide, by decide⟩, ?_, by decide, ?_⟩
  · exact registry_invariant_protection.1 exLegacyStore "t0" (by decide)
  · exact registry_invariant_protection.2.1 exModel exModel
      ⟨by decide, by decide, by decide⟩ (Reach.refl exModel)
  · exact registry_invariant_protection.2.2 exSingleModel "proj-a" (by decide)
